import Mathlib

/-!
Verification of the work-tree subsystem of a content-addressed version
control system ("got"), shallowly embedded from `src/lib/worktree.c`.

Object ids (20-byte SHA-1 digests, compared bytewise) are modelled as
natural numbers with decidable equality; file contents are lists of
bytes; C functions returning `const struct got_error *` become
`Except GotError _` valued functions.  Collaborators that live outside
`worktree.c` (object store lookups, path canonicalization, the external
diff3 merger) are passed in as explicit function arguments, exactly as
the C code consumes them through their interfaces.
-/

namespace Got

/-- A 20-byte object digest, compared bytewise; modelled abstractly. -/
abbrev ObjectId := Nat

/-- One byte of file content. -/
abbrev Byte := Nat

/-- Per-path status codes reported by the status walker
(`GOT_STATUS_*` in `got_worktree.h`, listed in spec §3.6). -/
inductive Status where
  | noChange
  | add
  | statExists
  | modify
  | modeChange
  | delete
  | conflict
  | merge
  | update
  | revert
  | missing
  | unversioned
  | obstructed
  | badSymlink
  | cannotDelete
  | cannotUpdate
  deriving DecidableEq, Repr

/-- Error codes (`GOT_ERR_*`) relevant to the verified operations. -/
inductive GotError where
  | mixedCommits
  | conflicts
  | commitHeadChanged
  | commitMsgEmpty
  | commitNoChanges
  | commitOutOfDate
  | fileStaged
  | noTreeEntry
  | badPath
  | noObj
  | noSpace
  | ioErr
  deriving DecidableEq, Repr

/-! ## §4.8 `check_out_of_date` (worktree.c:5275)

`got_object_id_by_path` is an object-store collaborator; the code only
observes whether it yields an id, fails with `GOT_ERR_NO_TREE_ENTRY`,
or fails otherwise, so it is passed in as an `Except`-valued result of
resolving `in_repo_path` at the head commit. -/

/-- Translation of `check_out_of_date(in_repo_path, status, staged_status, base_blob_id,
base_commit_id, head_commit_id, repo, ood_errcode)`.  `idByPath` is the
result of `got_object_id_by_path(repo, head_commit_id, in_repo_path)`. -/
def check_out_of_date (status staged_status : Status)
    (base_blob_id base_commit_id head_commit_id : ObjectId)
    (idByPath : Except GotError ObjectId)
    (ood_errcode : GotError) : Except GotError Unit :=
  if status ≠ Status.add ∧ staged_status ≠ Status.add then
    -- Trivial case: base commit == head commit
    if base_commit_id = head_commit_id then Except.ok ()
    else
      -- Ensure file content which local changes were based on
      -- matches file content in the branch head.
      match idByPath with
      | Except.error e =>
          if e = GotError.noTreeEntry then Except.error ood_errcode
          else Except.error e
      | Except.ok id => if id = base_blob_id then Except.ok () else Except.error ood_errcode
  else
    -- Require that added files don't exist in the branch head.
    match idByPath with
    | Except.error e =>
        if e = GotError.noTreeEntry then Except.ok () else Except.error e
    | Except.ok _ => Except.error ood_errcode

/-! ## §6.4 / §4.3 conflict-marker labels

`GOT_MERGE_LABEL_MERGED` and `GOT_MERGE_LABEL_BASE` (worktree.c:66-67)
and the `asprintf("%s: commit %s", label, id_str)` constructions used by
`merge_blob` (worktree.c:1131) and `update_blob` (worktree.c:1925). -/

def GOT_MERGE_LABEL_MERGED : String := "merged change"

def GOT_MERGE_LABEL_BASE : String := "3-way merge base"

/-- Format `asprintf("%s: commit %s", label, id_str)`. -/
def mergeLabel (label id_str : String) : String :=
  label ++ ": commit " ++ id_str

/-- The ancestor-side conflict label built by `update_blob`
(worktree.c:1925) from the index entry's base commit id, and by
`merge_files` (worktree.c:3003) from `commit_id1`. -/
def label_orig_for (id_str : String) : String :=
  mergeLabel GOT_MERGE_LABEL_BASE id_str

/-- The derived-side conflict label built by `merge_blob`
(worktree.c:1131) from the incoming commit id. -/
def label_deriv_for (id_str : String) : String :=
  mergeLabel GOT_MERGE_LABEL_MERGED id_str

/-! ## §4.2 StatusWalker — `get_file_status` (worktree.c:1671)

The file index (`lib/fileindex.c`) stores, per tracked path, a
timestamp fingerprint, a packed mode with a file-type tag, a stage tag
and the base blob/commit ids; `worktree.c` reads these through
accessors.  Entries are modelled as a record of those observed fields. -/

/-- File-type tag packed into an index entry's mode
(`GOT_FILEIDX_MODE_{REGULAR_FILE,SYMLINK,BAD_SYMLINK}`). -/
inductive FileType where
  | regular
  | symlink
  | badSymlink
  deriving DecidableEq, Repr

/-- Stage tag of an index entry
(`GOT_FILEIDX_STAGE_{NONE,ADD,MODIFY,DELETE}`). -/
inductive Stage where
  | stageNone
  | stageAdd
  | stageModify
  | stageDelete
  deriving DecidableEq, Repr

/-- The fields of `struct stat` observed by the status walker:
ctime, mtime, size and the `S_IXUSR` bit of `st_mode`. -/
structure StatInfo where
  ctime_sec : Int
  ctime_nsec : Int
  mtime_sec : Int
  mtime_nsec : Int
  st_size : Nat
  xbit : Bool
  deriving DecidableEq, Repr

/-- The fields of a `struct got_fileindex_entry` observed by
`get_file_status` and the checkout callbacks.  `blob_sha1 = none`
models `!got_fileindex_entry_has_blob(ie)` (an all-zero digest), and
similarly for `commit_sha1` and `staged_blob_sha1`; `file_on_disk`
is the negation of the `GOT_FILEIDX_F_NO_FILE_ON_DISK` flag. -/
structure FileIndexEntry where
  ctime_sec : Int
  ctime_nsec : Int
  mtime_sec : Int
  mtime_nsec : Int
  size : Nat
  xbit : Bool
  filetype : FileType
  stage : Stage
  blob_sha1 : Option ObjectId
  commit_sha1 : Option ObjectId
  staged_blob_sha1 : Option ObjectId
  file_on_disk : Bool
  deriving DecidableEq, Repr

/-- Translation of `get_staged_status` (worktree.c:1601). -/
def get_staged_status (ie : FileIndexEntry) : Status :=
  match ie.stage with
  | Stage.stageAdd => Status.add
  | Stage.stageDelete => Status.delete
  | Stage.stageModify => Status.modify
  | Stage.stageNone => Status.noChange

/-- Translation of `xbit_differs` (worktree.c:1584): compares the `S_IXUSR` bit of
the entry's recorded permissions with the on-disk mode. -/
def xbit_differs (ie : FileIndexEntry) (st_xbit : Bool) : Bool :=
  ie.xbit != st_xbit

/-- Translation of `stat_info_differs` (worktree.c:1591): ctime sec+nsec, mtime
sec+nsec, the low 32 bits of the size (`sb->st_size & 0xffffffff`),
and the executable bit. -/
def stat_info_differs (ie : FileIndexEntry) (sb : StatInfo) : Bool :=
  ! (ie.ctime_sec == sb.ctime_sec &&
     ie.ctime_nsec == sb.ctime_nsec &&
     ie.mtime_sec == sb.mtime_sec &&
     ie.mtime_nsec == sb.mtime_nsec &&
     ie.size == sb.st_size % 2 ^ 32 &&
     ! xbit_differs ie sb.xbit)

/-- What `lstat`/`fstatat` with `AT_SYMLINK_NOFOLLOW` reports for the
tracked path: missing, a regular file (with its bytes), a symlink
(with its target), or some other file type. -/
inductive DiskState where
  | absent
  | regular (content : List Byte) (sb : StatInfo)
  | symlink (target : List Byte) (sb : StatInfo)
  | otherType (sb : StatInfo)
  deriving DecidableEq, Repr

/-- The 8 KiB stream-compare loop of `get_file_status`
(worktree.c:1777-1805): per round, a blob block and a file block of
matching nominal size are read; a length mismatch or a byte mismatch
makes the contents differ, and both streams ending together without a
mismatch makes them equal.  `blob` is the blob payload (the object
header, skipped by the loop, is not part of it). -/
def chunkedContentsDiffer (blob file : List Byte) : Bool :=
  match blob, file with
  | [], [] => false
  | [], _ :: _ => true
  | _ :: _, [] => true
  | b1 :: bs, f1 :: fs =>
      if (b1 :: bs).take 8192 = (f1 :: fs).take 8192 then
        chunkedContentsDiffer ((b1 :: bs).drop 8192) ((f1 :: fs).drop 8192)
      else true
termination_by blob.length
decreasing_by
  simp [List.length_drop]
  omega

/-- Modelled from the spec: the conflict-marker strings
`GOT_DIFF_CONFLICT_MARKER_{BEGIN,SEP,END}` are defined in
`got_lib_diff.h`, which is not part of the sources; spec §4.2 step 9
gives them as `<<<<<<<`, `=======` and `>>>>>>>`.  Markers and lines
are byte lists (`<` is 60, `=` is 61, `>` is 62). -/
def GOT_DIFF_CONFLICT_MARKER_BEGIN : List Byte := List.replicate 7 60

/-- Modelled from the spec: see `GOT_DIFF_CONFLICT_MARKER_BEGIN`. -/
def GOT_DIFF_CONFLICT_MARKER_SEP : List Byte := List.replicate 7 61

/-- Modelled from the spec: see `GOT_DIFF_CONFLICT_MARKER_BEGIN`. -/
def GOT_DIFF_CONFLICT_MARKER_END : List Byte := List.replicate 7 62

/-- The `markers[3]` array of `get_modified_file_content_status`
(worktree.c:1553). -/
def conflictMarkers : List (List Byte) :=
  [GOT_DIFF_CONFLICT_MARKER_BEGIN,
   GOT_DIFF_CONFLICT_MARKER_SEP,
   GOT_DIFF_CONFLICT_MARKER_END]

/-- Split file bytes into the lines `fparseln` yields one by one:
each `\n` (byte 10) terminates a line and is stripped; a final
unterminated line is still reported; an empty file yields no lines. -/
def splitLines : List Byte → List (List Byte)
  | [] => []
  | b :: rest =>
      if b = 10 then [] :: splitLines rest
      else
        match splitLines rest with
        | [] => [[b]]
        | l :: ls => (b :: l) :: ls

/-- The scanning loop of `get_modified_file_content_status`
(worktree.c:1563-1577), generalized over the list of markers still to
be matched (the C code tracks the index `i` into `markers[]`; `ms`
is the suffix `markers[i..]`).  A line matching the current marker as
a prefix advances to the next marker; matching the last marker means
a complete triple was found. -/
def scanMarkers : List (List Byte) → List (List Byte) → Bool
  | [], _ => true
  | _ :: _, [] => false
  | m :: ms, l :: ls =>
      if m.isPrefixOf l then
        match ms with
        | [] => true
        | _ :: _ => scanMarkers ms ls
      else scanMarkers (m :: ms) ls

/-- Translation of `get_modified_file_content_status` (worktree.c:1548): upgrade
`MODIFY` to `CONFLICT` when the scan over the file's lines finds the
complete marker triple in order. -/
def get_modified_file_content_status (fileContent : List Byte) : Status :=
  if scanMarkers conflictMarkers (splitLines fileContent) then
    Status.conflict
  else Status.modify

/-- The line of `ls` at position `n` starts with marker `m`. -/
def lineMatches (ls : List (List Byte)) (n : Nat) (m : List Byte) : Prop :=
  ∃ l, ls[n]? = some l ∧ m.isPrefixOf l = true

/-- Spec-side reading of §4.2 step 9: the three conflict markers match
at the starts of three lines in strictly increasing order. -/
def markersTriple (ls : List (List Byte)) : Prop :=
  ∃ i j k : Nat, i < j ∧ j < k ∧
    lineMatches ls i GOT_DIFF_CONFLICT_MARKER_BEGIN ∧
    lineMatches ls j GOT_DIFF_CONFLICT_MARKER_SEP ∧
    lineMatches ls k GOT_DIFF_CONFLICT_MARKER_END

/-- The markers `ms` each match, in order, some line of `ls`: the
first marker at some line `i`, the rest strictly after it. -/
def markersFound : List (List Byte) → List (List Byte) → Prop
  | [], _ => True
  | m :: ms, ls =>
      ∃ i l, ls[i]? = some l ∧ m.isPrefixOf l = true ∧
        markersFound ms (ls.drop (i + 1))

/-- Instrumented result of `get_file_status`: the status, whether
`got_object_open_as_blob` was reached, and whether on-disk file
content (file bytes or link target) was read and compared. -/
structure FileStatusResult where
  status : Status
  blobOpened : Bool
  contentRead : Bool
  deriving DecidableEq, Repr

/-- Continuation of `get_file_status` (worktree.c:1724 onwards) once
stat succeeded on a regular file (`isLnk = false`, `data` the file
bytes) or a symlink (`isLnk = true`, `data` the link target). -/
def get_file_status_present (ie : FileIndexEntry) (isLnk : Bool)
    (data : List Byte) (sb : StatInfo) (hdrlen : Nat)
    (repo : ObjectId → Option (List Byte)) :
    Except GotError FileStatusResult :=
  if ¬ ie.file_on_disk then
    Except.ok ⟨Status.delete, false, false⟩
  else if ie.blob_sha1 = none ∧ get_staged_status ie ≠ Status.add then
    Except.ok ⟨Status.add, false, false⟩
  else if stat_info_differs ie sb = false then
    Except.ok ⟨Status.noChange, false, false⟩
  else if isLnk = true ∧ ie.filetype ≠ FileType.symlink then
    Except.ok ⟨Status.modify, false, false⟩
  else
    match (if get_staged_status ie = Status.modify ∨
               get_staged_status ie = Status.add
           then ie.staged_blob_sha1 else ie.blob_sha1) with
    | none => Except.error GotError.noObj
    | some id =>
        match repo id with
        | none => Except.error GotError.noObj
        | some payload =>
            if isLnk then
              -- get_symlink_modification_status (worktree.c:1617)
              if 1024 ≤ hdrlen + payload.length then
                Except.error GotError.noSpace
              else if payload ≠ data then
                Except.ok ⟨Status.modify, true, true⟩
              else
                Except.ok ⟨Status.noChange, true, true⟩
            else
              if chunkedContentsDiffer payload data then
                Except.ok ⟨get_modified_file_content_status data,
                           true, true⟩
              else if xbit_differs ie sb.xbit then
                Except.ok ⟨Status.modeChange, true, true⟩
              else
                Except.ok ⟨Status.noChange, true, true⟩

/-- Translation of `get_file_status` (worktree.c:1671).  `disk` is what stat'ing the
path reports, `hdrlen` the loose-object header length of the base
blob, and `repo` resolves a blob id to its payload
(`got_object_open_as_blob`); `PATH_MAX` is 1024 (OpenBSD). -/
def get_file_status (ie : FileIndexEntry) (disk : DiskState) (hdrlen : Nat)
    (repo : ObjectId → Option (List Byte)) :
    Except GotError FileStatusResult :=
  match disk with
  | DiskState.absent =>
      -- ENOENT from fstatat/open: MISSING when the entry believes a
      -- file exists on disk, DELETE otherwise.
      if ie.file_on_disk then
        Except.ok ⟨Status.missing, false, false⟩
      else
        Except.ok ⟨Status.delete, false, false⟩
  | DiskState.otherType _ =>
      Except.ok ⟨Status.obstructed, false, false⟩
  | DiskState.regular content sb =>
      get_file_status_present ie false content sb hdrlen repo
  | DiskState.symlink target sb =>
      get_file_status_present ie true target sb hdrlen repo

/-! ## §4.3 ThreeWayMerger — `merge_file` (worktree.c:752) -/

/-- Translation of `check_files_equal` (worktree.c:701): compare the two files'
`lstat` sizes first; on equal sizes, `check_file_contents_equal`
(worktree.c:658) runs the same 8 KiB block-compare loop as the status
walker (`chunkedContentsDiffer`, without a header to skip). -/
def check_files_equal (f1 f2 : List Byte) : Bool :=
  if f1.length ≠ f2.length then false
  else ! chunkedContentsDiffer f1 f2

/-- Result of a successful `merge_file` run: the bytes renamed onto
the on-disk path, the overlap count returned by the external merger,
the `local_changes_subsumed` output flag, and the status reported to
the progress callback. -/
structure MergeFileResult where
  ondiskContent : List Byte
  overlapcnt : Nat
  local_changes_subsumed : Bool
  progressStatus : Status
  deriving DecidableEq, Repr

/-- Translation of `merge_file` (worktree.c:752), success path.  `blob_orig` is the
common ancestor blob (`none` models the "add vs add" case, which uses
an empty ancestor temp file); `derivContent` the bytes of the file at
`deriv_path`; `mineContent` the on-disk file's bytes (for a symlink,
the target copied into a temp file); `diff3` the external line merger
`got_merge_diff3(…, deriv, ancestor, mine, …)`, returning the overlap
count and the merged bytes written to the output descriptor. -/
def merge_file (blob_orig : Option (List Byte))
    (derivContent mineContent : List Byte)
    (diff3 : List Byte → List Byte → List Byte → Nat × List Byte) :
    MergeFileResult :=
  let ancestor := match blob_orig with
    | some c => c
    | none => []
  let merged := diff3 derivContent ancestor mineContent
  -- Check if a clean merge has subsumed all local changes.
  let subsumed :=
    if merged.1 = 0 then check_files_equal derivContent merged.2
    else false
  { ondiskContent := merged.2,
    overlapcnt := merged.1,
    local_changes_subsumed := subsumed,
    progressStatus :=
      if 0 < merged.1 then Status.conflict else Status.merge }

/-! ## §4.4 SymlinkSafety — `is_bad_symlink_target` (worktree.c:1249) -/

/-- Value of `PATH_MAX` on OpenBSD, the platform this code targets. -/
def PATH_MAX : Nat := 1024

/-- Modelled from the spec: the worktree meta directory name
(`GOT_WORKTREE_GOT_DIR`, defined in a header outside the sources);
spec §6.1 names it `.<vcs>`. -/
def GOT_WORKTREE_GOT_DIR : String := ".got"

/-- Translation of `is_bad_symlink_target` (worktree.c:1249).  `ondisk_parent` is
`dirname(ondisk_path)`; the path helpers `got_path_is_absolute`,
`got_canonpath` and `got_path_is_child` live in `lib/path.c` (outside
the worktree sources) and are passed as parameters. -/
def is_bad_symlink_target (target_path ondisk_parent wtroot_path : String)
    (isAbsolute : String → Bool)
    (canonpath : String → Except GotError String)
    (isChild : String → String → Bool) : Except GotError Bool :=
  if PATH_MAX ≤ target_path.length then Except.ok true
  else
    let canonRes :=
      if ¬ isAbsolute target_path then
        let abspath := ondisk_parent ++ "/" ++ target_path
        if PATH_MAX ≤ abspath.length then Except.error GotError.badPath
        else canonpath abspath
      else canonpath target_path
    match canonRes with
    | Except.error e => Except.error e
    | Except.ok canon =>
        -- Only allow symlinks pointing at paths within the work tree,
        -- and not into the meta directory.
        if ¬ isChild canon wtroot_path then Except.ok true
        else if isChild canon (wtroot_path ++ "/" ++ GOT_WORKTREE_GOT_DIR)
        then Except.ok true
        else Except.ok false

/-- Spec-side §4.4: the canonicalized target — a relative target is
resolved against the directory containing the link before
canonicalization. -/
def canonicalizedTarget (target_path ondisk_parent : String)
    (isAbsolute : String → Bool)
    (canonpath : String → Except GotError String) :
    Except GotError String :=
  if isAbsolute target_path then canonpath target_path
  else canonpath (ondisk_parent ++ "/" ++ target_path)

/-! ## §4.7 MergeDriver pre-flight — `check_merge_ok` (worktree.c:2945) -/

/-- Run a callback over each element in order, stopping at the first
error (the shape shared by `TAILQ_FOREACH` loops with an error `goto`
and by the file index iterator). -/
def forEachStopOnError {α : Type} (cb : α → Except GotError Unit) :
    List α → Except GotError Unit
  | [] => Except.ok ()
  | e :: es =>
      match cb e with
      | Except.error err => Except.error err
      | Except.ok () => forEachStopOnError cb es

/-- Translation of `check_merge_ok` (worktree.c:2945) for one index entry:
`ie_commit` is the entry's `commit_sha1`, `status` what
`get_file_status` reports for its on-disk path.  Mixed base commits
are rejected before conflicted files. -/
def check_merge_ok (wt_base ie_commit : ObjectId) (status : Status) :
    Except GotError Unit :=
  if ie_commit ≠ wt_base then Except.error GotError.mixedCommits
  else if status = Status.conflict then Except.error GotError.conflicts
  else Except.ok ()

/-- Outcome of `got_worktree_merge_files`: the returned error (if
any) and whether `merge_files` (the tree-content merge) ran. -/
structure MergeFilesOutcome where
  result : Except GotError Unit
  mergePerformed : Bool
  deriving Repr

/-- Translation of `got_worktree_merge_files` (worktree.c:3042): iterate
`check_merge_ok` over every file index entry, then run `merge_files`
only when the pre-flight passed.  Each entry is `(commit_sha1,
file status)`.  Modelled from the spec where the iterator is
concerned: `got_fileindex_for_each_entry_safe` lives in
`lib/fileindex.c` (not among the sources); spec §4.1 documents stable-
order iteration, and the callback's error stops the operation. -/
def got_worktree_merge_files (wt_base : ObjectId)
    (entries : List (ObjectId × Status)) : MergeFilesOutcome :=
  match forEachStopOnError
      (fun e => check_merge_ok wt_base e.1 e.2) entries with
  | Except.error e => ⟨Except.error e, false⟩
  | Except.ok () => ⟨Except.ok (), true⟩

/-! ## §4.5 CheckoutEngine — staged-path guards (worktree.c:1856, 2048) -/

/-- Instrumented outcome of one checkout callback (`update_blob` /
`delete_blob`): the error result, whether `get_file_status` was
invoked, and whether the on-disk file or the index entry was
modified. -/
structure CheckoutPathOutcome where
  result : Except GotError Unit
  statusExamined : Bool
  diskModified : Bool
  indexModified : Bool
  deriving Repr

/-- Translation of `update_blob` (worktree.c:1840), entry-present path, up to and
including the staged guard and the `get_file_status` call; the
remainder of the callback (short-circuits, merge, install, index
update — worktree.c:1861 onwards) is the caller-supplied `rest`. -/
def update_blob_entry (ie : FileIndexEntry) (disk : DiskState)
    (hdrlen : Nat) (repo : ObjectId → Option (List Byte))
    (rest : FileStatusResult → CheckoutPathOutcome) :
    CheckoutPathOutcome :=
  if get_staged_status ie ≠ Status.noChange then
    ⟨Except.error GotError.fileStaged, false, false, false⟩
  else
    match get_file_status ie disk hdrlen repo with
    | Except.error e => ⟨Except.error e, true, false, false⟩
    | Except.ok r =>
        let out := rest r
        ⟨out.result, true, out.diskModified, out.indexModified⟩

/-- Translation of `delete_blob` (worktree.c:2038), up to and including the staged
guard and the `get_file_status` call; the remainder (symlink conflict
install, schedule-add conversion, file removal and entry removal —
worktree.c:2059 onwards) is the caller-supplied `rest`. -/
def delete_blob_entry (ie : FileIndexEntry) (disk : DiskState)
    (hdrlen : Nat) (repo : ObjectId → Option (List Byte))
    (rest : FileStatusResult → CheckoutPathOutcome) :
    CheckoutPathOutcome :=
  if get_staged_status ie ≠ Status.noChange then
    ⟨Except.error GotError.fileStaged, false, false, false⟩
  else
    match get_file_status ie disk hdrlen repo with
    | Except.error e => ⟨Except.error e, true, false, false⟩
    | Except.ok r =>
        let out := rest r
        ⟨out.result, true, out.diskModified, out.indexModified⟩

/-! ## §4.6 CommitBuilder — `commit_worktree` (worktree.c:5314) and
`got_worktree_commit` (worktree.c:5508) -/

/-- The collaborator results `commit_worktree` consumes, in program
order: opening the head commit and its tree, the log message from the
callback, blob creation for added/modified commitables, `write_tree`,
`got_object_commit_create`, the locked re-resolution of the head
reference, the reference update+write, and setting the worktree base
commit.  Each is the `Except` outcome of that step. -/
structure CommitEnv where
  openHead : Except GotError Unit
  logmsg : Option String
  blobCreation : Except GotError Unit
  writeTree : Except GotError ObjectId
  commitCreate : ObjectId → Except GotError ObjectId
  headResolve2 : Except GotError ObjectId
  refUpdate : Except GotError Unit
  setBase : Except GotError Unit

/-- Translation of `commit_worktree` (worktree.c:5314): create blobs, write the new
tree and commit object, then re-resolve the head reference under lock
and fail with `COMMIT_HEAD_CHANGED` if it no longer equals
`head_commit_id`; otherwise move the reference and the worktree base
commit. -/
def commit_worktree (head_commit_id : ObjectId) (env : CommitEnv) :
    Except GotError ObjectId :=
  match env.openHead with
  | Except.error e => Except.error e
  | Except.ok () =>
      match env.logmsg with
      | none => Except.error GotError.commitMsgEmpty
      | some logmsg =>
          if logmsg.length = 0 then Except.error GotError.commitMsgEmpty
          else
            match env.blobCreation with
            | Except.error e => Except.error e
            | Except.ok () =>
                match env.writeTree with
                | Except.error e => Except.error e
                | Except.ok new_tree_id =>
                    match env.commitCreate new_tree_id with
                    | Except.error e => Except.error e
                    | Except.ok new_commit_id =>
                        -- Check if a concurrent commit to our branch
                        -- has occurred; the reference is locked here.
                        match env.headResolve2 with
                        | Except.error e => Except.error e
                        | Except.ok head_commit_id2 =>
                            if head_commit_id ≠ head_commit_id2 then
                              Except.error GotError.commitHeadChanged
                            else
                              match env.refUpdate with
                              | Except.error e => Except.error e
                              | Except.ok () =>
                                  match env.setBase with
                                  | Except.error e => Except.error e
                                  | Except.ok () =>
                                      Except.ok new_commit_id

/-- The fields of a commitable consumed by the out-of-date check
(§3.4). -/
structure Commitable where
  status : Status
  staged_status : Status
  base_blob_id : ObjectId
  base_commit_id : ObjectId

/-- Outcome of `got_worktree_commit`: the result, the file index
after the operation, and whether `sync_fileindex` ran. -/
structure WorktreeCommitOutcome (α : Type) where
  result : Except GotError ObjectId
  fileindex : α
  synced : Bool

/-- Translation of `got_worktree_commit` (worktree.c:5508), after the staged-files
pre-checks: resolve the head reference (unlocked), collect
commitables, fail with `COMMIT_NO_CHANGES` when there are none, run
`check_out_of_date` for each, then `commit_worktree`; only when it
succeeds run `update_fileindex_after_commit` and `sync_fileindex`.
`idByPath ct` is the resolution of the commitable's `in_repo_path` at
the head commit. -/
def got_worktree_commit {α : Type} (headResolve : Except GotError ObjectId)
    (commitables : List Commitable)
    (idByPath : Commitable → Except GotError ObjectId)
    (env : CommitEnv)
    (update_fileindex_after_commit : α → α)
    (fileindex : α) : WorktreeCommitOutcome α :=
  match headResolve with
  | Except.error e => ⟨Except.error e, fileindex, false⟩
  | Except.ok head_commit_id =>
      if commitables.isEmpty then
        ⟨Except.error GotError.commitNoChanges, fileindex, false⟩
      else
        match forEachStopOnError
            (fun ct => check_out_of_date ct.status ct.staged_status
              ct.base_blob_id ct.base_commit_id head_commit_id
              (idByPath ct) GotError.commitOutOfDate) commitables with
        | Except.error e => ⟨Except.error e, fileindex, false⟩
        | Except.ok () =>
            match commit_worktree head_commit_id env with
            | Except.error e => ⟨Except.error e, fileindex, false⟩
            | Except.ok new_commit_id =>
                ⟨Except.ok new_commit_id,
                 update_fileindex_after_commit fileindex, true⟩

end Got

/-! ## Theorems -/

namespace Got

/-- C5: `check_out_of_date` for a non-add commitable succeeds iff the
base commit equals head or the path resolves at head to the base blob;
it fails with the out-of-date code iff the path is missing from head or
resolves to a different blob.  For an add it fails with the out-of-date
code iff the path resolves to an object under head. -/
theorem check_out_of_date_spec (status staged_status : Status)
    (base_blob_id base_commit_id head_commit_id : ObjectId)
    (idByPath : Except GotError ObjectId) (ood : GotError)
    (hres : ∀ e, idByPath = Except.error e → e = GotError.noTreeEntry) :
    (status ≠ Status.add ∧ staged_status ≠ Status.add →
      ((check_out_of_date status staged_status base_blob_id base_commit_id
          head_commit_id idByPath ood = Except.ok ()
        ↔ base_commit_id = head_commit_id ∨ idByPath = Except.ok base_blob_id) ∧
       (check_out_of_date status staged_status base_blob_id base_commit_id
          head_commit_id idByPath ood = Except.error ood
        ↔ base_commit_id ≠ head_commit_id ∧
          (idByPath = Except.error GotError.noTreeEntry ∨
           ∃ id, idByPath = Except.ok id ∧ id ≠ base_blob_id)))) ∧
    ((status = Status.add ∨ staged_status = Status.add) →
      (check_out_of_date status staged_status base_blob_id base_commit_id
          head_commit_id idByPath ood = Except.error ood
        ↔ ∃ id, idByPath = Except.ok id)) := by
  constructor
  · intro hna
    rcases idByPath with e | id
    · have he := hres e rfl
      subst he
      by_cases hbh : base_commit_id = head_commit_id <;>
        simp [check_out_of_date, hna, hbh]
    · by_cases hbh : base_commit_id = head_commit_id
      · simp [check_out_of_date, hna, hbh]
      · by_cases hid : id = base_blob_id
        · simp [check_out_of_date, hna, hbh, hid]
        · simp [check_out_of_date, hna, hbh, hid, Ne.symm hid]
  · intro hadd
    have hna : ¬ (status ≠ Status.add ∧ staged_status ≠ Status.add) := by
      rcases hadd with h | h <;> simp [h]
    rcases idByPath with e | id
    · have he := hres e rfl
      subst he
      simp [check_out_of_date, hna]
    · simp [check_out_of_date, hna]

/-- Witness for C5 at concrete inputs: a non-add commitable whose path
resolves at head to a different blob is out of date. -/
theorem check_out_of_date_spec_witness :
    (Status.modify ≠ Status.add ∧ Status.noChange ≠ Status.add) ∧
    check_out_of_date Status.modify Status.noChange 10 20 21
      (Except.ok 11) GotError.commitOutOfDate
      = Except.error GotError.commitOutOfDate := by
  refine ⟨⟨by decide, by decide⟩, ?_⟩
  have h := (check_out_of_date_spec Status.modify Status.noChange 10 20 21
      (Except.ok 11) GotError.commitOutOfDate
      (by intro e he; cases he)).1 ⟨by decide, by decide⟩
  exact h.2.mpr ⟨by decide, Or.inr ⟨11, rfl, by decide⟩⟩

/-- C6 counterexample: the ancestor-side label built by the code for
commit id string "c0" is `3-way merge base: commit c0`, not
`base: commit c0` as the claim states. -/
theorem merge_label_base_counterexample :
    label_orig_for "c0" ≠ "base: commit c0" := by
  decide

/-- C6 (amended): the ancestor-side conflict label is
`3-way merge base: commit <id>` and the derived-side label is
`merged change: commit <id>`. -/
theorem merge_labels_amended (id_str : String) :
    label_orig_for id_str = "3-way merge base: commit " ++ id_str ∧
    label_deriv_for id_str = "merged change: commit " ++ id_str := by
  constructor <;> rfl

/-- C3: for an index entry with a base blob and a file present on
disk, a non-differing stat fingerprint short-circuits the walker to
`NO_CHANGE` with neither the blob opened nor file content read, and
`stat_info_differs` compares exactly ctime sec+nsec, mtime sec+nsec,
the low 32 bits of the size, and the executable bit. -/
theorem get_file_status_fast_path (ie : FileIndexEntry)
    (content target : List Byte) (sb : StatInfo) (hdrlen : Nat)
    (repo : ObjectId → Option (List Byte))
    (hblob : ie.blob_sha1.isSome)
    (hdisk : ie.file_on_disk = true)
    (hstat : stat_info_differs ie sb = false) :
    get_file_status ie (DiskState.regular content sb) hdrlen repo =
      Except.ok ⟨Status.noChange, false, false⟩ ∧
    get_file_status ie (DiskState.symlink target sb) hdrlen repo =
      Except.ok ⟨Status.noChange, false, false⟩ ∧
    (∀ sb' : StatInfo, stat_info_differs ie sb' = false ↔
      (ie.ctime_sec = sb'.ctime_sec ∧ ie.ctime_nsec = sb'.ctime_nsec ∧
       ie.mtime_sec = sb'.mtime_sec ∧ ie.mtime_nsec = sb'.mtime_nsec ∧
       ie.size = sb'.st_size % 2 ^ 32 ∧ ie.xbit = sb'.xbit)) := by
  have hb : ¬ (ie.blob_sha1 = none ∧ get_staged_status ie ≠ Status.add) := by
    rintro ⟨h, -⟩
    rw [h] at hblob
    exact absurd hblob (by simp)
  refine ⟨?_, ?_, ?_⟩
  · simp [get_file_status, get_file_status_present, hdisk, hb, hstat]
  · simp [get_file_status, get_file_status_present, hdisk, hb, hstat]
  · intro sb'
    simp [stat_info_differs, xbit_differs]
    tauto

/-- Witness for C3: a concrete entry whose fingerprint matches the
on-disk stat yields `NO_CHANGE` without any blob or file access. -/
theorem get_file_status_fast_path_witness :
    (Option.isSome (some (7 : ObjectId)) ∧
     stat_info_differs
       ⟨1, 2, 3, 4, 5, false, FileType.regular, Stage.stageNone,
        some 7, some 8, none, true⟩ ⟨1, 2, 3, 4, 5, false⟩ = false) ∧
    get_file_status
      ⟨1, 2, 3, 4, 5, false, FileType.regular, Stage.stageNone,
       some 7, some 8, none, true⟩
      (DiskState.regular [97] ⟨1, 2, 3, 4, 5, false⟩) 6 (fun _ => none) =
      Except.ok ⟨Status.noChange, false, false⟩ := by
  refine ⟨⟨by decide, by decide⟩, ?_⟩
  exact (get_file_status_fast_path
    ⟨1, 2, 3, 4, 5, false, FileType.regular, Stage.stageNone,
     some 7, some 8, none, true⟩ [97] [] ⟨1, 2, 3, 4, 5, false⟩ 6
    (fun _ => none) (by decide) rfl (by decide)).1

/-! ### Helper lemmas: the 8 KiB stream compare computes byte equality,
and the greedy marker scan finds exactly the ordered triples. -/

theorem chunkedContentsDiffer_eq_false (b f : List Byte) :
    chunkedContentsDiffer b f = false ↔ b = f := by
  generalize hn : b.length = n
  induction n using Nat.strong_induction_on generalizing b f with
  | _ n ih =>
    cases b with
    | nil =>
        cases f with
        | nil => simp [chunkedContentsDiffer]
        | cons f1 fs => simp [chunkedContentsDiffer]
    | cons b1 bs =>
        cases f with
        | nil => simp [chunkedContentsDiffer]
        | cons f1 fs =>
            rw [chunkedContentsDiffer]
            by_cases h : (b1 :: bs).take 8192 = (f1 :: fs).take 8192
            · rw [if_pos h]
              have hlen : ((b1 :: bs).drop 8192).length < n := by
                subst hn
                simp [List.length_drop]
                omega
              rw [ih _ hlen _ _ rfl]
              constructor
              · intro hdrop
                rw [← List.take_append_drop 8192 (b1 :: bs), h, hdrop,
                  List.take_append_drop]
              · intro hbf
                rw [hbf]
            · rw [if_neg h]
              simp only [Bool.true_eq_false, false_iff]
              intro hbf
              exact h (by rw [hbf])

theorem chunkedContentsDiffer_eq_true (b f : List Byte) :
    chunkedContentsDiffer b f = true ↔ b ≠ f := by
  constructor
  · intro h hbf
    have hf := (chunkedContentsDiffer_eq_false b f).mpr hbf
    rw [h] at hf
    cases hf
  · intro h
    cases hc : chunkedContentsDiffer b f
    · exact absurd ((chunkedContentsDiffer_eq_false b f).mp hc) h
    · rfl

/-- One scanning step of `scanMarkers`: a prefix match advances to the
next marker (an empty remainder meaning the triple is complete), a
mismatch moves to the next line. -/
theorem scanMarkers_cons (m : List Byte) (ms : List (List Byte))
    (l : List Byte) (ls : List (List Byte)) :
    scanMarkers (m :: ms) (l :: ls) =
      if m.isPrefixOf l then scanMarkers ms ls
      else scanMarkers (m :: ms) ls := by
  cases ms <;> simp [scanMarkers]

theorem markersFound_of_drop (ms : List (List Byte)) (n : Nat)
    (ls : List (List Byte)) (h : markersFound ms (ls.drop n)) :
    markersFound ms ls := by
  cases ms with
  | nil => trivial
  | cons m ms =>
      obtain ⟨i, l, hget, hpre, hrest⟩ := h
      refine ⟨n + i, l, ?_, hpre, ?_⟩
      · rw [List.getElem?_drop] at hget
        exact hget
      · have h2 : (ls.drop n).drop (i + 1) = ls.drop (n + i + 1) := by
          rw [List.drop_drop]
          congr 1
        rw [← h2]
        exact hrest

theorem scanMarkers_iff_markersFound (ms ls : List (List Byte)) :
    scanMarkers ms ls = true ↔ markersFound ms ls := by
  induction ls generalizing ms with
  | nil =>
      cases ms with
      | nil => simp [scanMarkers, markersFound]
      | cons m ms => simp [scanMarkers, markersFound]
  | cons l ls ih =>
      cases ms with
      | nil => simp [scanMarkers, markersFound]
      | cons m ms =>
          rw [scanMarkers_cons]
          by_cases hp : m.isPrefixOf l = true
          · rw [if_pos hp, ih ms]
            constructor
            · intro h
              exact ⟨0, l, by simp, hp, h⟩
            · rintro ⟨i, l2, hget, hpre, hrest⟩
              have hd : (l :: ls).drop (i + 1) = ls.drop i := rfl
              rw [hd] at hrest
              exact markersFound_of_drop ms i ls hrest
          · rw [if_neg hp, ih (m :: ms)]
            constructor
            · rintro ⟨i, l2, hget, hpre, hrest⟩
              refine ⟨i + 1, l2, by simpa using hget, hpre, ?_⟩
              have hd : (l :: ls).drop (i + 1 + 1) = ls.drop (i + 1) := rfl
              rw [hd]
              exact hrest
            · rintro ⟨i, l2, hget, hpre, hrest⟩
              cases i with
              | zero =>
                  have hl : l = l2 := by simpa using hget
                  subst hl
                  exact absurd hpre hp
              | succ i =>
                  refine ⟨i, l2, by simpa using hget, hpre, ?_⟩
                  have hd : (l :: ls).drop (i + 1 + 1) = ls.drop (i + 1) := rfl
                  rw [hd] at hrest
                  exact hrest

theorem markersFound_triple_iff (ls : List (List Byte)) :
    markersFound conflictMarkers ls ↔ markersTriple ls := by
  constructor
  · rintro ⟨i, l1, hg1, hp1, i2, l2, hg2, hp2, i3, l3, hg3, hp3, -⟩
    rw [List.getElem?_drop] at hg2
    rw [List.drop_drop, List.getElem?_drop] at hg3
    refine ⟨i, i + 1 + i2, i + 1 + i2 + 1 + i3, by omega, by omega,
      ⟨l1, hg1, hp1⟩, ⟨l2, hg2, hp2⟩, ⟨l3, ?_, hp3⟩⟩
    have he : i + 1 + i2 + 1 + i3 = i + 1 + (i2 + 1) + i3 := by omega
    rw [he]
    exact hg3
  · rintro ⟨i, j, k, hij, hjk, ⟨l1, hg1, hp1⟩, ⟨l2, hg2, hp2⟩, ⟨l3, hg3, hp3⟩⟩
    refine ⟨i, l1, hg1, hp1, j - (i + 1), l2, ?_, hp2,
      k - (j + 1), l3, ?_, hp3, trivial⟩
    · rw [List.getElem?_drop]
      have he : i + 1 + (j - (i + 1)) = j := by omega
      rw [he]
      exact hg2
    · rw [List.drop_drop, List.getElem?_drop]
      have he : i + 1 + (j - (i + 1) + 1) + (k - (j + 1)) = k := by omega
      rw [he]
      exact hg3

/-- C7: when the stream compare ended at MODIFY, the walker re-reads
the file and scans its lines for the marker triple; the status is
upgraded to CONFLICT exactly when `<<<<<<<`, `=======`, `>>>>>>>`
match at line starts in that order, and remains MODIFY otherwise. -/
theorem conflict_marker_upgrade (ie : FileIndexEntry) (content : List Byte)
    (sb : StatInfo) (hdrlen : Nat) (repo : ObjectId → Option (List Byte))
    (id : ObjectId) (payload : List Byte)
    (hdisk : ie.file_on_disk = true)
    (hblob : ¬ (ie.blob_sha1 = none ∧ get_staged_status ie ≠ Status.add))
    (hstat : stat_info_differs ie sb = true)
    (hid : (if get_staged_status ie = Status.modify ∨
               get_staged_status ie = Status.add
            then ie.staged_blob_sha1 else ie.blob_sha1) = some id)
    (hrepo : repo id = some payload)
    (hdiff : chunkedContentsDiffer payload content = true) :
    get_file_status ie (DiskState.regular content sb) hdrlen repo =
      Except.ok ⟨get_modified_file_content_status content, true, true⟩ ∧
    (get_modified_file_content_status content = Status.conflict ↔
      markersTriple (splitLines content)) ∧
    (¬ markersTriple (splitLines content) →
      get_modified_file_content_status content = Status.modify) := by
  have htriple := (scanMarkers_iff_markersFound conflictMarkers
    (splitLines content)).trans (markersFound_triple_iff (splitLines content))
  refine ⟨?_, ?_, ?_⟩
  · simp [get_file_status, get_file_status_present, hdisk, hblob, hstat,
      hid, hrepo, hdiff]
  · by_cases hs : scanMarkers conflictMarkers (splitLines content) = true
    · simp [get_modified_file_content_status, hs, htriple.mp hs]
    · simp only [get_modified_file_content_status, if_neg hs]
      constructor
      · intro h
        exact absurd h (by decide)
      · intro h
        exact absurd (htriple.mpr h) hs
  · intro h
    have hs : ¬ scanMarkers conflictMarkers (splitLines content) = true :=
      fun hs => h (htriple.mp hs)
    simp [get_modified_file_content_status, hs]

/-- Witness for C7: a file consisting of the three marker lines is
scanned and the complete triple is found. -/
theorem conflict_marker_upgrade_witness :
    chunkedContentsDiffer [97]
      [60, 60, 60, 60, 60, 60, 60, 10,
       61, 61, 61, 61, 61, 61, 61, 10,
       62, 62, 62, 62, 62, 62, 62] = true ∧
    get_file_status
      ⟨0, 0, 0, 0, 1, false, FileType.regular, Stage.stageNone,
       some 1, some 2, none, true⟩
      (DiskState.regular
        [60, 60, 60, 60, 60, 60, 60, 10,
         61, 61, 61, 61, 61, 61, 61, 10,
         62, 62, 62, 62, 62, 62, 62] ⟨0, 0, 0, 1, 1, false⟩) 5
      (fun i => if i = 1 then some [97] else none) =
      Except.ok ⟨get_modified_file_content_status
        [60, 60, 60, 60, 60, 60, 60, 10,
         61, 61, 61, 61, 61, 61, 61, 10,
         62, 62, 62, 62, 62, 62, 62], true, true⟩ := by
  have hdiff : chunkedContentsDiffer [97]
      [60, 60, 60, 60, 60, 60, 60, 10,
       61, 61, 61, 61, 61, 61, 61, 10,
       62, 62, 62, 62, 62, 62, 62] = true := by
    rw [chunkedContentsDiffer_eq_true]
    decide
  refine ⟨hdiff, ?_⟩
  exact (conflict_marker_upgrade
    ⟨0, 0, 0, 0, 1, false, FileType.regular, Stage.stageNone,
     some 1, some 2, none, true⟩
    [60, 60, 60, 60, 60, 60, 60, 10,
     61, 61, 61, 61, 61, 61, 61, 10,
     62, 62, 62, 62, 62, 62, 62] ⟨0, 0, 0, 1, 1, false⟩ 5
    (fun i => if i = 1 then some [97] else none) 1 [97]
    rfl (by decide) (by decide) (by decide) (by decide) hdiff).1

/-- C9 counterexample: an index entry recording file type symlink
while the on-disk file is regular, with file content equal to the
base blob, yields NO_CHANGE — not MODIFY — despite the file-type
mismatch. -/
theorem type_mismatch_counterexample :
    get_file_status
      ⟨0, 0, 0, 0, 1, false, FileType.symlink, Stage.stageNone,
       some 1, some 2, none, true⟩
      (DiskState.regular [97] ⟨0, 0, 0, 1, 1, false⟩) 5
      (fun i => if i = 1 then some [97] else none) =
      Except.ok ⟨Status.noChange, true, true⟩ ∧
    Status.noChange ≠ Status.modify := by
  have hcc : chunkedContentsDiffer [97] [97] = false :=
    (chunkedContentsDiffer_eq_false [97] [97]).mpr rfl
  refine ⟨?_, by decide⟩
  simp [get_file_status, get_file_status_present, stat_info_differs,
    xbit_differs, get_staged_status, hcc]

/-- C9 (amended): the walker's file-type check fires only in one
direction — an on-disk symlink whose index entry records a
non-symlink file type yields MODIFY (once the stat fingerprint
differs); for an on-disk regular file recorded as a symlink the
status is decided by the content comparison instead. -/
theorem type_mismatch_amended (ie : FileIndexEntry) (target : List Byte)
    (sb : StatInfo) (hdrlen : Nat) (repo : ObjectId → Option (List Byte))
    (hdisk : ie.file_on_disk = true)
    (hblob : ¬ (ie.blob_sha1 = none ∧ get_staged_status ie ≠ Status.add))
    (hstat : stat_info_differs ie sb = true)
    (htype : ie.filetype ≠ FileType.symlink) :
    get_file_status ie (DiskState.symlink target sb) hdrlen repo =
      Except.ok ⟨Status.modify, false, false⟩ := by
  simp [get_file_status, get_file_status_present, hdisk, hblob, hstat, htype]

/-- Witness for C9's amended theorem at a concrete entry. -/
theorem type_mismatch_amended_witness :
    get_file_status
      ⟨0, 0, 0, 0, 1, false, FileType.regular, Stage.stageNone,
       some 1, some 2, none, true⟩
      (DiskState.symlink [97] ⟨0, 0, 0, 1, 1, false⟩) 5 (fun _ => none) =
      Except.ok ⟨Status.modify, false, false⟩ :=
  type_mismatch_amended
    ⟨0, 0, 0, 0, 1, false, FileType.regular, Stage.stageNone,
     some 1, some 2, none, true⟩
    [97] ⟨0, 0, 0, 1, 1, false⟩ 5 (fun _ => none)
    rfl (by decide) (by decide) (by decide)

theorem check_files_equal_iff (f1 f2 : List Byte) :
    check_files_equal f1 f2 = true ↔ f1 = f2 := by
  unfold check_files_equal
  by_cases h : f1.length = f2.length
  · simp only [h, ne_eq, not_true_eq_false, if_neg, ite_false]
    rw [Bool.not_eq_true', chunkedContentsDiffer_eq_false]
  · have hne : f1 ≠ f2 := fun hf => h (by rw [hf])
    simp [h, hne]

/-- C2: `merge_file` reports `local_changes_subsumed` exactly when the
external merger found no overlaps and the merged output equals the
derived-side content byte for byte; in every other case the flag is
false. -/
theorem local_changes_subsumed_iff (blob_orig : Option (List Byte))
    (derivContent mineContent : List Byte)
    (diff3 : List Byte → List Byte → List Byte → Nat × List Byte) :
    (merge_file blob_orig derivContent mineContent
        diff3).local_changes_subsumed = true ↔
      ((merge_file blob_orig derivContent mineContent
          diff3).overlapcnt = 0 ∧
       (merge_file blob_orig derivContent mineContent
          diff3).ondiskContent = derivContent) := by
  cases blob_orig with
  | none =>
      by_cases h : (diff3 derivContent [] mineContent).1 = 0
      · simp [merge_file, h, check_files_equal_iff]
        exact ⟨Eq.symm, Eq.symm⟩
      · simp [merge_file, h]
  | some c =>
      by_cases h : (diff3 derivContent c mineContent).1 = 0
      · simp [merge_file, h, check_files_equal_iff]
        exact ⟨Eq.symm, Eq.symm⟩
      · simp [merge_file, h]

/-- The child/meta-dir checks at the tail of `is_bad_symlink_target`
(worktree.c:1294-1305), characterized. -/
theorem bad_symlink_tail (c wtroot_path : String)
    (isChild : String → String → Bool) (b : Bool)
    (h : (if ¬ isChild c wtroot_path then
            (Except.ok true : Except GotError Bool)
          else if isChild c (wtroot_path ++ "/" ++ GOT_WORKTREE_GOT_DIR)
          then Except.ok true
          else Except.ok false) = Except.ok b) :
    (b = true ↔
      (isChild c wtroot_path = false ∨
       isChild c (wtroot_path ++ "/" ++ GOT_WORKTREE_GOT_DIR) = true)) := by
  by_cases h1 : isChild c wtroot_path = true
  · by_cases h2 : isChild c
        (wtroot_path ++ "/" ++ GOT_WORKTREE_GOT_DIR) = true
    · rw [if_neg (not_not_intro h1), if_pos h2] at h
      injection h with hb
      subst hb
      simp [h2]
    · rw [if_neg (not_not_intro h1), if_neg h2] at h
      injection h with hb
      subst hb
      simp [h1, h2]
  · rw [if_pos h1] at h
    injection h with hb
    subst hb
    have h1f : isChild c wtroot_path = false := by
      cases hcb : isChild c wtroot_path with
      | false => rfl
      | true => exact absurd hcb h1
    simp [h1f]

/-- C4: a successful classification reports a bad symlink target iff
the target length reaches `PATH_MAX`, or the canonicalized target
(relative targets resolved against the link's directory) is not a
child of the worktree root, or it falls inside the worktree meta
directory. -/
theorem is_bad_symlink_target_iff
    (target_path ondisk_parent wtroot_path : String)
    (isAbsolute : String → Bool)
    (canonpath : String → Except GotError String)
    (isChild : String → String → Bool) (b : Bool)
    (h : is_bad_symlink_target target_path ondisk_parent wtroot_path
        isAbsolute canonpath isChild = Except.ok b) :
    (b = true ↔
      PATH_MAX ≤ target_path.length ∨
      ∃ c, canonicalizedTarget target_path ondisk_parent isAbsolute
          canonpath = Except.ok c ∧
        (isChild c wtroot_path = false ∨
         isChild c (wtroot_path ++ "/" ++ GOT_WORKTREE_GOT_DIR) = true)) := by
  unfold is_bad_symlink_target at h
  unfold canonicalizedTarget
  by_cases hlen : PATH_MAX ≤ target_path.length
  · rw [if_pos hlen] at h
    injection h with hb
    subst hb
    simp [hlen]
  · rw [if_neg hlen] at h
    by_cases habs : isAbsolute target_path = true
    · rw [if_neg (not_not_intro habs)] at h
      rw [if_pos habs]
      cases hc : canonpath target_path with
      | error e =>
          rw [hc] at h
          cases h
      | ok c =>
          rw [hc] at h
          rw [bad_symlink_tail c wtroot_path isChild b h]
          simp [hc, hlen]
    · rw [if_pos habs] at h
      rw [if_neg habs]
      by_cases habl : PATH_MAX ≤ (ondisk_parent ++ "/" ++ target_path).length
      · rw [if_pos habl] at h
        cases h
      · rw [if_neg habl] at h
        cases hc : canonpath (ondisk_parent ++ "/" ++ target_path) with
        | error e =>
            rw [hc] at h
            cases h
        | ok c =>
            rw [hc] at h
            rw [bad_symlink_tail c wtroot_path isChild b h]
            simp [hc, hlen]

/-- Witness for C4: a relative target whose canonical form is not a
child of the worktree root is classified bad. -/
theorem is_bad_symlink_target_iff_witness :
    is_bad_symlink_target "a" "p" "w" (fun _ => true)
      (fun s => Except.ok s) (fun _ _ => false) = Except.ok true ∧
    (true = true ↔
      PATH_MAX ≤ ("a" : String).length ∨
      ∃ c, canonicalizedTarget "a" "p" (fun _ => true)
          (fun s => Except.ok s) = Except.ok c ∧
        ((fun _ _ => false : String → String → Bool) c "w" = false ∨
         (fun _ _ => false : String → String → Bool) c
           ("w" ++ "/" ++ GOT_WORKTREE_GOT_DIR) = true)) := by
  have h : is_bad_symlink_target "a" "p" "w" (fun _ => true)
      (fun s => Except.ok s) (fun _ _ => false) = Except.ok true := rfl
  exact ⟨h, is_bad_symlink_target_iff "a" "p" "w" (fun _ => true)
    (fun s => Except.ok s) (fun _ _ => false) true h⟩

/-! ### Helper lemmas for the merge pre-flight -/

theorem forEachStopOnError_ok {α : Type} (cb : α → Except GotError Unit)
    (l : List α) (h : ∀ x ∈ l, cb x = Except.ok ()) :
    forEachStopOnError cb l = Except.ok () := by
  induction l with
  | nil => rfl
  | cons e es ih =>
      simp only [forEachStopOnError, h e (by simp)]
      exact ih (fun x hx => h x (by simp [hx]))

theorem check_merge_ok_of_mixed (wt_base ie_commit : ObjectId)
    (status : Status) (h : ie_commit ≠ wt_base) :
    check_merge_ok wt_base ie_commit status =
      Except.error GotError.mixedCommits := by
  simp [check_merge_ok, h]

theorem check_merge_ok_of_conflict (wt_base ie_commit : ObjectId)
    (status : Status) (h1 : ie_commit = wt_base)
    (h2 : status = Status.conflict) :
    check_merge_ok wt_base ie_commit status =
      Except.error GotError.conflicts := by
  simp [check_merge_ok, h1, h2]

theorem check_merge_ok_of_clean (wt_base ie_commit : ObjectId)
    (status : Status) (h1 : ie_commit = wt_base)
    (h2 : status ≠ Status.conflict) :
    check_merge_ok wt_base ie_commit status = Except.ok () := by
  simp [check_merge_ok, h1, h2]

theorem forEach_merge_ok_eq_ok (wt_base : ObjectId)
    (entries : List (ObjectId × Status)) :
    forEachStopOnError (fun e => check_merge_ok wt_base e.1 e.2) entries =
        Except.ok () ↔
      ∀ e ∈ entries, e.1 = wt_base ∧ e.2 ≠ Status.conflict := by
  induction entries with
  | nil => simp [forEachStopOnError]
  | cons e es ih =>
      rw [show forEachStopOnError
          (fun e => check_merge_ok wt_base e.1 e.2) (e :: es) =
        (match check_merge_ok wt_base e.1 e.2 with
         | Except.error err => Except.error err
         | Except.ok () => forEachStopOnError
             (fun e => check_merge_ok wt_base e.1 e.2) es) from rfl]
      by_cases h1 : e.1 = wt_base
      · by_cases h2 : e.2 = Status.conflict
        · rw [check_merge_ok_of_conflict wt_base e.1 e.2 h1 h2]
          simp [h2]
        · rw [check_merge_ok_of_clean wt_base e.1 e.2 h1 h2]
          simp [List.forall_mem_cons, h1, h2, ih]
      · rw [check_merge_ok_of_mixed wt_base e.1 e.2 h1]
        simp [List.forall_mem_cons, h1]

theorem forEach_merge_ok_err_cases (wt_base : ObjectId)
    (entries : List (ObjectId × Status)) (err : GotError)
    (h : forEachStopOnError (fun e => check_merge_ok wt_base e.1 e.2)
        entries = Except.error err) :
    err = GotError.mixedCommits ∨ err = GotError.conflicts := by
  induction entries with
  | nil => simp [forEachStopOnError] at h
  | cons e es ih =>
      rw [show forEachStopOnError
          (fun e => check_merge_ok wt_base e.1 e.2) (e :: es) =
        (match check_merge_ok wt_base e.1 e.2 with
         | Except.error err => Except.error err
         | Except.ok () => forEachStopOnError
             (fun e => check_merge_ok wt_base e.1 e.2) es) from rfl] at h
      by_cases h1 : e.1 = wt_base
      · by_cases h2 : e.2 = Status.conflict
        · rw [check_merge_ok_of_conflict wt_base e.1 e.2 h1 h2] at h
          injection h with hb
          exact Or.inr hb.symm
        · rw [check_merge_ok_of_clean wt_base e.1 e.2 h1 h2] at h
          exact ih h
      · rw [check_merge_ok_of_mixed wt_base e.1 e.2 h1] at h
        injection h with hb
        exact Or.inl hb.symm

theorem forEach_merge_ok_mixed (wt_base : ObjectId)
    (entries : List (ObjectId × Status))
    (hc : ∀ e ∈ entries, e.2 ≠ Status.conflict)
    (hm : ∃ e ∈ entries, e.1 ≠ wt_base) :
    forEachStopOnError (fun e => check_merge_ok wt_base e.1 e.2) entries =
      Except.error GotError.mixedCommits := by
  induction entries with
  | nil => simp at hm
  | cons e es ih =>
      rw [show forEachStopOnError
          (fun e => check_merge_ok wt_base e.1 e.2) (e :: es) =
        (match check_merge_ok wt_base e.1 e.2 with
         | Except.error err => Except.error err
         | Except.ok () => forEachStopOnError
             (fun e => check_merge_ok wt_base e.1 e.2) es) from rfl]
      by_cases h1 : e.1 = wt_base
      · have h2 : e.2 ≠ Status.conflict := hc e (by simp)
        rw [check_merge_ok_of_clean wt_base e.1 e.2 h1 h2]
        apply ih (fun x hx => hc x (by simp [hx]))
        obtain ⟨x, hx, hne⟩ := hm
        rcases List.mem_cons.mp hx with hx | hx
        · subst hx
          exact absurd h1 hne
        · exact ⟨x, hx, hne⟩
      · rw [check_merge_ok_of_mixed wt_base e.1 e.2 h1]

theorem forEach_merge_ok_conflict (wt_base : ObjectId)
    (entries : List (ObjectId × Status))
    (hall : ∀ e ∈ entries, e.1 = wt_base)
    (hex : ∃ e ∈ entries, e.2 = Status.conflict) :
    forEachStopOnError (fun e => check_merge_ok wt_base e.1 e.2) entries =
      Except.error GotError.conflicts := by
  induction entries with
  | nil => simp at hex
  | cons e es ih =>
      rw [show forEachStopOnError
          (fun e => check_merge_ok wt_base e.1 e.2) (e :: es) =
        (match check_merge_ok wt_base e.1 e.2 with
         | Except.error err => Except.error err
         | Except.ok () => forEachStopOnError
             (fun e => check_merge_ok wt_base e.1 e.2) es) from rfl]
      have h1 : e.1 = wt_base := hall e (by simp)
      by_cases h2 : e.2 = Status.conflict
      · rw [check_merge_ok_of_conflict wt_base e.1 e.2 h1 h2]
      · rw [check_merge_ok_of_clean wt_base e.1 e.2 h1 h2]
        apply ih (fun x hx => hall x (by simp [hx]))
        obtain ⟨x, hx, hcf⟩ := hex
        rcases List.mem_cons.mp hx with hx | hx
        · subst hx
          exact absurd hcf h2
        · exact ⟨x, hx, hcf⟩

/-- C8: `got_worktree_merge_files` runs the `check_merge_ok`
pre-flight over the index; an entry with a base commit different from
the worktree's fails it with `MIXED_COMMITS`, a conflicted entry with
`CONFLICTS`, and in either case no tree-content merge is performed. -/
theorem merge_files_preflight (wt_base : ObjectId)
    (entries : List (ObjectId × Status))
    (hbad : (∃ e ∈ entries, e.1 ≠ wt_base) ∨
            (∃ e ∈ entries, e.2 = Status.conflict)) :
    (got_worktree_merge_files wt_base entries).mergePerformed = false ∧
    (∃ err, (got_worktree_merge_files wt_base entries).result =
        Except.error err ∧
      (err = GotError.mixedCommits ∨ err = GotError.conflicts)) ∧
    ((∀ e ∈ entries, e.2 ≠ Status.conflict) →
      (got_worktree_merge_files wt_base entries).result =
        Except.error GotError.mixedCommits) ∧
    ((∀ e ∈ entries, e.1 = wt_base) →
      (got_worktree_merge_files wt_base entries).result =
        Except.error GotError.conflicts) := by
  have hnotok : forEachStopOnError
      (fun e => check_merge_ok wt_base e.1 e.2) entries ≠ Except.ok () := by
    intro hok
    rw [forEach_merge_ok_eq_ok] at hok
    rcases hbad with ⟨e, he, hne⟩ | ⟨e, he, hcf⟩
    · exact hne (hok e he).1
    · exact (hok e he).2 hcf
  unfold got_worktree_merge_files
  cases hfe : forEachStopOnError
      (fun e => check_merge_ok wt_base e.1 e.2) entries with
  | error err =>
      refine ⟨rfl, ⟨err, rfl, forEach_merge_ok_err_cases wt_base entries
        err hfe⟩, ?_, ?_⟩
      · intro hc
        have hm : ∃ e ∈ entries, e.1 ≠ wt_base := by
          rcases hbad with hmm | ⟨e, he, hcf⟩
          · exact hmm
          · exact absurd hcf (hc e he)
        have := forEach_merge_ok_mixed wt_base entries hc hm
        rw [hfe] at this
        cases this
        rfl
      · intro hall
        have hex : ∃ e ∈ entries, e.2 = Status.conflict := by
          rcases hbad with ⟨e, he, hne⟩ | hcc
          · exact absurd (hall e he) hne
          · exact hcc
        have := forEach_merge_ok_conflict wt_base entries hall hex
        rw [hfe] at this
        cases this
        rfl
  | ok u =>
      cases u
      exact absurd hfe hnotok

/-- Witness for C8: one entry whose base commit differs from the
worktree base makes the merge refuse with `MIXED_COMMITS`. -/
theorem merge_files_preflight_witness :
    ((∃ e ∈ [((1 : ObjectId), Status.noChange)], e.1 ≠ (2 : ObjectId)) ∨
     (∃ e ∈ [((1 : ObjectId), Status.noChange)],
        e.2 = Status.conflict)) ∧
    (got_worktree_merge_files 2
        [((1 : ObjectId), Status.noChange)]).mergePerformed = false ∧
    (got_worktree_merge_files 2
        [((1 : ObjectId), Status.noChange)]).result =
      Except.error GotError.mixedCommits := by
  have hbad : (∃ e ∈ [((1 : ObjectId), Status.noChange)],
      e.1 ≠ (2 : ObjectId)) ∨
      (∃ e ∈ [((1 : ObjectId), Status.noChange)],
        e.2 = Status.conflict) :=
    Or.inl ⟨(1, Status.noChange), by simp, by decide⟩
  have h := merge_files_preflight 2 [((1 : ObjectId), Status.noChange)] hbad
  exact ⟨hbad, h.1, h.2.2.1 (by
    intro e he
    simp at he
    simp [he])⟩

/-- C10: during checkout, a staged index entry makes both the update
path and the delete path fail with `FILE_STAGED` before file status
is examined, with neither the on-disk file nor the index entry
modified. -/
theorem checkout_staged_guard (ie : FileIndexEntry) (disk : DiskState)
    (hdrlen : Nat) (repo : ObjectId → Option (List Byte))
    (restU restD : FileStatusResult → CheckoutPathOutcome)
    (h : ie.stage ≠ Stage.stageNone) :
    update_blob_entry ie disk hdrlen repo restU =
      ⟨Except.error GotError.fileStaged, false, false, false⟩ ∧
    delete_blob_entry ie disk hdrlen repo restD =
      ⟨Except.error GotError.fileStaged, false, false, false⟩ := by
  have hs : get_staged_status ie ≠ Status.noChange := by
    unfold get_staged_status
    cases hst : ie.stage <;> simp_all
  constructor
  · simp [update_blob_entry, hs]
  · simp [delete_blob_entry, hs]

/-- Witness for C10 at a staged-modify entry. -/
theorem checkout_staged_guard_witness :
    ((⟨0, 0, 0, 0, 1, false, FileType.regular, Stage.stageModify,
       some 1, some 2, some 3, true⟩ : FileIndexEntry).stage ≠
      Stage.stageNone) ∧
    update_blob_entry
      ⟨0, 0, 0, 0, 1, false, FileType.regular, Stage.stageModify,
       some 1, some 2, some 3, true⟩
      DiskState.absent 5 (fun _ => none)
      (fun _ => ⟨Except.ok (), true, true, true⟩) =
      ⟨Except.error GotError.fileStaged, false, false, false⟩ := by
  refine ⟨by decide, ?_⟩
  exact (checkout_staged_guard
    ⟨0, 0, 0, 0, 1, false, FileType.regular, Stage.stageModify,
     some 1, some 2, some 3, true⟩
    DiskState.absent 5 (fun _ => none)
    (fun _ => ⟨Except.ok (), true, true, true⟩)
    (fun _ => ⟨Except.ok (), true, true, true⟩) (by decide)).1

/-- C1: when the head reference resolves to a different commit id at
`commit_worktree`'s locked re-resolution than the id
`got_worktree_commit` captured, the commit fails with
`COMMIT_HEAD_CHANGED` and the file index is neither updated nor
synced. -/
theorem commit_head_changed {α : Type} (h1 h2 tid cid : ObjectId)
    (m : String) (commitables : List Commitable)
    (idByPath : Commitable → Except GotError ObjectId) (env : CommitEnv)
    (upd : α → α) (fi : α)
    (hopen : env.openHead = Except.ok ())
    (hmsg : env.logmsg = some m) (hmne : m.length ≠ 0)
    (hblob : env.blobCreation = Except.ok ())
    (htree : env.writeTree = Except.ok tid)
    (hcc : env.commitCreate tid = Except.ok cid)
    (hres2 : env.headResolve2 = Except.ok h2)
    (hne : h1 ≠ h2)
    (hne0 : commitables ≠ [])
    (hood : ∀ ct ∈ commitables,
      check_out_of_date ct.status ct.staged_status ct.base_blob_id
        ct.base_commit_id h1 (idByPath ct) GotError.commitOutOfDate =
        Except.ok ()) :
    commit_worktree h1 env = Except.error GotError.commitHeadChanged ∧
    got_worktree_commit (Except.ok h1) commitables idByPath env upd fi =
      ⟨Except.error GotError.commitHeadChanged, fi, false⟩ := by
  have hcw : commit_worktree h1 env =
      Except.error GotError.commitHeadChanged := by
    simp [commit_worktree, hopen, hmsg, hmne, hblob, htree, hcc, hres2, hne]
  refine ⟨hcw, ?_⟩
  have hemp : commitables.isEmpty = false := by
    cases commitables with
    | nil => exact absurd rfl hne0
    | cons c cs => rfl
  have hfe : forEachStopOnError
      (fun ct => check_out_of_date ct.status ct.staged_status
        ct.base_blob_id ct.base_commit_id h1 (idByPath ct)
        GotError.commitOutOfDate) commitables = Except.ok () :=
    forEachStopOnError_ok _ commitables hood
  simp [got_worktree_commit, hemp, hfe, hcw]

/-- Witness for C1: the head moved from commit 7 to commit 8 between
capture and the locked re-resolution; the index value 0 is untouched
and unsynced. -/
theorem commit_head_changed_witness :
    got_worktree_commit (α := Nat) (Except.ok 7)
      [⟨Status.modify, Status.noChange, 5, 7⟩] (fun _ => Except.ok 5)
      ⟨Except.ok (), some "m", Except.ok (), Except.ok 11,
       fun t => Except.ok (t + 1), Except.ok 8, Except.ok (),
       Except.ok ()⟩
      (fun n => n + 1) 0 =
      ⟨Except.error GotError.commitHeadChanged, 0, false⟩ := by
  have h := commit_head_changed (α := Nat) 7 8 11 12 "m"
    [⟨Status.modify, Status.noChange, 5, 7⟩] (fun _ => Except.ok 5)
    ⟨Except.ok (), some "m", Except.ok (), Except.ok 11,
     fun t => Except.ok (t + 1), Except.ok 8, Except.ok (), Except.ok ()⟩
    (fun n => n + 1) 0
    rfl rfl (by decide) rfl rfl rfl rfl (by decide)
    (by intro h; cases h)
    (by
      intro ct hct
      simp only [List.mem_singleton] at hct
      subst hct
      rfl)
  exact h.2

end Got
